import Mathlib

/-!
Verification of the wuzup extraction pipeline.

This file gives a shallow embedding of the core of the `wuzup` repository:
the single-pass scrape algorithm shared by the two fetch backends
(`requests_fetcher.py`, `playwright_fetcher.py`), image acquisition with
vector-format detection and per-item fault tolerance (`fetcher.py`), the
multi-variant OCR merge (`image.py`), and the orchestration / fallback
logic of `_scrape_to_text` and `_web_to_text_command` (`cli.py`).

External effects (HTTP responses, the parsed DOM, the browser, the OCR
engine, PIL operations) are modelled as explicit oracle parameters; the
control flow, dedup logic and error propagation are translated directly
from the Python source.  Python exceptions become `Except` values,
Python float parameters become `ℚ`, byte strings become `List ℕ`.
-/

namespace Wuzup

/-! ### Ordered first-occurrence deduplication

Both the URL dedup of `scrape` (`seen_urls` set + `img_urls` list) and the
case-folded line dedup of `image_to_text` / `_scrape_to_text` (`seen` set +
`all_lines` list) are instances of one pattern: walk a list, keep an element
only if its key was not seen before.  `kfGo` is that walk with an explicit
set of already-seen keys; `keepFirstBy` starts from the empty set. -/

def kfGo {α β : Type} [DecidableEq β] (key : α → β) (seen : List β) : List α → List α
  | [] => []
  | x :: xs => if key x ∈ seen then kfGo key seen xs else x :: kfGo key (key x :: seen) xs

def keepFirstBy {α β : Type} [DecidableEq β] (key : α → β) (l : List α) : List α :=
  kfGo key [] l

/-- Every element kept by `kfGo` has a key outside the initial seen set. -/
theorem kfGo_key_not_seen {α β : Type} [DecidableEq β] (key : α → β) :
    ∀ (l : List α) (seen : List β) (a : α), a ∈ kfGo key seen l → key a ∉ seen := by
  intro l
  induction l with
  | nil => intro seen a h; simp [kfGo] at h
  | cons x xs ih =>
    intro seen a h
    by_cases hx : key x ∈ seen
    · rw [kfGo, if_pos hx] at h
      exact ih seen a h
    · rw [kfGo, if_neg hx] at h
      rcases List.mem_cons.mp h with rfl | h
      · exact hx
      · have := ih (key x :: seen) a h
        intro hs
        exact this (List.mem_cons_of_mem _ hs)

/-- The keys of the elements kept by `kfGo` are pairwise distinct. -/
theorem kfGo_pairwise {α β : Type} [DecidableEq β] (key : α → β) :
    ∀ (l : List α) (seen : List β), (kfGo key seen l).Pairwise (fun a b => key a ≠ key b) := by
  intro l
  induction l with
  | nil => intro seen; simp [kfGo]
  | cons x xs ih =>
    intro seen
    by_cases hx : key x ∈ seen
    · rw [kfGo, if_pos hx]; exact ih seen
    · rw [kfGo, if_neg hx]
      refine List.Pairwise.cons ?_ (ih (key x :: seen))
      intro b hb
      have := kfGo_key_not_seen key xs (key x :: seen) b hb
      intro hxb
      exact this (hxb ▸ List.mem_cons_self _ _)

/-- Each kept element is the first element of the input whose key equals its
own: the input splits around it with all earlier elements having a different
key.  (This is the "preserves the casing of the first occurrence" fact.) -/
theorem kfGo_first_occurrence {α β : Type} [DecidableEq β] (key : α → β) :
    ∀ (l : List α) (seen : List β) (a : α), a ∈ kfGo key seen l →
      ∃ l₁ l₂, l = l₁ ++ a :: l₂ ∧ ∀ y ∈ l₁, key y ≠ key a := by
  intro l
  induction l with
  | nil => intro seen a h; simp [kfGo] at h
  | cons x xs ih =>
    intro seen a h
    by_cases hx : key x ∈ seen
    · rw [kfGo, if_pos hx] at h
      obtain ⟨l₁, l₂, rfl, hne⟩ := ih seen a h
      have hna := kfGo_key_not_seen key _ seen a h
      refine ⟨x :: l₁, l₂, rfl, ?_⟩
      intro y hy
      rcases List.mem_cons.mp hy with rfl | hy
      · intro hk; exact hna (hk ▸ hx)
      · exact hne y hy
    · rw [kfGo, if_neg hx] at h
      rcases List.mem_cons.mp h with rfl | h
      · exact ⟨[], xs, rfl, by simp⟩
      · obtain ⟨l₁, l₂, rfl, hne⟩ := ih _ a h
        have hna := kfGo_key_not_seen key _ _ a h
        refine ⟨x :: l₁, l₂, rfl, ?_⟩
        intro y hy
        rcases List.mem_cons.mp hy with rfl | hy
        · intro hk; exact hna (hk ▸ List.mem_cons_self _ _)
        · exact hne y hy

/-- `kfGo` output is a sublist of the input (order is preserved, every kept
element literally occurs in the input). -/
theorem kfGo_sublist {α β : Type} [DecidableEq β] (key : α → β) :
    ∀ (l : List α) (seen : List β), (kfGo key seen l).Sublist l := by
  intro l
  induction l with
  | nil => intro seen; simp [kfGo]
  | cons x xs ih =>
    intro seen
    by_cases hx : key x ∈ seen
    · rw [kfGo, if_pos hx]; exact (ih seen).cons x
    · rw [kfGo, if_neg hx]; exact (ih (key x :: seen)).cons₂ x

theorem keepFirstBy_pairwise {α β : Type} [DecidableEq β] (key : α → β) (l : List α) :
    (keepFirstBy key l).Pairwise (fun a b => key a ≠ key b) :=
  kfGo_pairwise key l []

theorem keepFirstBy_first_occurrence {α β : Type} [DecidableEq β] (key : α → β) (l : List α)
    (a : α) (h : a ∈ keepFirstBy key l) :
    ∃ l₁ l₂, l = l₁ ++ a :: l₂ ∧ ∀ y ∈ l₁, key y ≠ key a :=
  kfGo_first_occurrence key l [] a h

theorem keepFirstBy_sublist {α β : Type} [DecidableEq β] (key : α → β) (l : List α) :
    (keepFirstBy key l).Sublist l :=
  kfGo_sublist key l []

/-- With the identity key, `keepFirstBy` output has no duplicates. -/
theorem keepFirstBy_id_nodup (l : List String) : (keepFirstBy id l).Nodup :=
  keepFirstBy_pairwise id l

/-! The Python loops carry the pair (seen set, output list) and process one
candidate at a time.  `addKeyed` is one loop iteration; folding it is the
same as running `kfGo`. -/

def addKeyed {α β : Type} [DecidableEq β] (key : α → β) (st : List β × List α) (x : α) :
    List β × List α :=
  if key x ∈ st.1 then st else (key x :: st.1, st.2 ++ [x])

theorem foldl_addKeyed {α β : Type} [DecidableEq β] (key : α → β) :
    ∀ (l : List α) (seen : List β) (out : List α),
      l.foldl (addKeyed key) (seen, out)
        = (((kfGo key seen l).map key).reverse ++ seen, out ++ kfGo key seen l) := by
  intro l
  induction l with
  | nil => intro seen out; simp [kfGo]
  | cons x xs ih =>
    intro seen out
    by_cases hx : key x ∈ seen
    · rw [List.foldl_cons]
      have hstep : addKeyed key (seen, out) x = (seen, out) := by
        simp [addKeyed, hx]
      rw [hstep, ih, kfGo, if_pos hx]
    · rw [List.foldl_cons]
      have hstep : addKeyed key (seen, out) x = (key x :: seen, out ++ [x]) := by
        simp [addKeyed, hx]
      rw [hstep, ih, kfGo, if_neg hx]
      simp

/-- Folding a per-group fold over a list of groups is folding over the
flattened list; used to turn the nested `for selector / for element / for
candidate` loops into one pass over the discovery-order list. -/
theorem foldl_flatMap {α β γ : Type} (f : γ → α → γ) (g : β → List α) :
    ∀ (l : List β) (init : γ),
      l.foldl (fun s b => (g b).foldl f s) init = (l.flatMap g).foldl f init := by
  intro l
  induction l with
  | nil => intro init; rfl
  | cons x xs ih => intro init; simp [List.flatMap_cons, List.foldl_append, ih]

/-! ### Python string helpers -/

/-- Python `str.splitlines` restricted to `\n` separators (the only
separator occurring in the strings this program builds): split on `\n`,
dropping the trailing empty piece so that a terminal newline does not
produce an extra blank line and `"".splitlines() == []`. -/
def splitlines (s : String) : List String :=
  let parts := s.splitOn "\n"
  if parts.getLast? = some "" then parts.dropLast else parts

/-! ### Errors and the scrape result value type -/

/-- Python exceptions that the pipeline raises or propagates.
`valueError` models `ValueError(msg)` raised in `cli.py`;
`runtimeError` models the `RuntimeError(f"HTTP {status}: {status_text} for {url}")`
of `playwright_fetcher.py`; `httpError` models `requests.HTTPError` from
`raise_for_status`; `exn` is an opaque propagated exception (network
failure, decode error, ...). -/
inductive Err where
  | valueError (msg : String)
  | runtimeError (status : Int) (status_text : String) (url : String)
  | httpError (status : Nat)
  | exn (code : Nat)
deriving DecidableEq, Repr

/-- `ScrapeResult` from `fetcher.py`: deduplicated absolute image URLs in
discovery order, and the matched elements' visible text joined by newlines. -/
structure ScrapeResult where
  img_urls : List String
  element_text : String
deriving DecidableEq, Repr

/-! ### fetcher.py — vector-image detection and `fetch_image`

Response bodies are byte strings, modelled as `List ℕ`. -/

/-- The six ASCII whitespace bytes stripped by Python `bytes.lstrip()`. -/
def isPyWS (b : Nat) : Bool :=
  b == 9 || b == 10 || b == 11 || b == 12 || b == 13 || b == 32

/-- `b"<svg"`. -/
def svgTag : List Nat := [60, 115, 118, 103]

/-- `b"<?xml"`. -/
def xmlTag : List Nat := [60, 63, 120, 109, 108]

/-- `needle.startswith` as a check on the leading bytes. -/
def startsWithBytes (p l : List Nat) : Bool := l.take p.length == p

/-- Python `needle in haystack` byte substring search. -/
def containsBytes (n : List Nat) : List Nat → Bool
  | [] => n == []
  | x :: xs => startsWithBytes n (x :: xs) || containsBytes n xs

/-- `fetcher._is_svg`: look at the first 512 bytes only, strip leading
whitespace, then test for a leading `<svg`, or a leading `<?xml` with
`<svg` somewhere in (the first 1024 bytes of) that stripped prefix. -/
def _is_svg (data : List Nat) : Bool :=
  let header := (data.take 512).dropWhile isPyWS
  startsWithBytes svgTag header ||
    (startsWithBytes xmlTag header && containsBytes svgTag (header.take 1024))

/-- One HTTP response as seen by `fetch_image`: status code and body. -/
structure HttpResponse where
  status : Nat
  content : List Nat
deriving DecidableEq, Repr

/-- Which decode path `fetch_image` takes for a body: rasterize the vector
markup via `_svg_to_pil`, or open the raw bytes as a bitmap. -/
inductive DecodedImage where
  | fromSvg (content : List Nat)
  | fromBitmap (content : List Nat)
deriving DecidableEq, Repr

/-- `Fetcher.fetch_image`, given the oracle response for its single GET:
`raise_for_status` raises `HTTPError` on a 4xx/5xx status; otherwise the
body is decoded on the branch selected by `_is_svg`. -/
def fetch_image (resp : HttpResponse) : Except Err DecodedImage :=
  if 400 ≤ resp.status ∧ resp.status < 600 then
    .error (.httpError resp.status)
  else if _is_svg resp.content then
    .ok (.fromSvg resp.content)
  else
    .ok (.fromBitmap resp.content)

/-! Bridging the boolean byte searches to propositional statements. -/

theorem startsWithBytes_iff (p l : List Nat) :
    startsWithBytes p l = true ↔ l.take p.length = p := by
  simp [startsWithBytes]

theorem containsBytes_iff (n : List Nat) :
    ∀ l, containsBytes n l = true ↔ ∃ i, (l.drop i).take n.length = n := by
  intro l
  induction l with
  | nil =>
    simp only [containsBytes, beq_iff_eq]
    constructor
    · rintro rfl; exact ⟨0, rfl⟩
    · rintro ⟨i, hi⟩; simpa using hi.symm
  | cons x xs ih =>
    simp only [containsBytes, Bool.or_eq_true, startsWithBytes_iff, ih]
    constructor
    · rintro (h | ⟨i, hi⟩)
      · exact ⟨0, h⟩
      · exact ⟨i + 1, hi⟩
    · rintro ⟨i, hi⟩
      match i with
      | 0 => exact Or.inl hi
      | j + 1 => exact Or.inr ⟨j, hi⟩

/-! ### The shared scrape traversal

Both backends run the same loop: for each selector in order, for each
matched element in document order, record the element's own image
reference, then each nested `<img>` descendant in document order; collect
the element's visible text.  The parsed page is an oracle
`String → List MatchedElem` mapping a selector to its matches; relative
URL resolution (`urljoin`) is an oracle `resolve : String → String → String`. -/

/-- An element as the scrape loop sees it: its `src` attribute, its
`data-src` attribute (`none` = attribute absent), and nothing else. -/
structure Elem where
  src : Option String
  dataSrc : Option String
deriving DecidableEq, Repr

/-- A matched element: itself, its nested image descendants in document
order, and its visible text (`get_text(separator=" ", strip=True)` for the
light backend, `inner_text()` for the heavy one). -/
structure MatchedElem where
  self : Elem
  nested : List Elem
  text : String
deriving DecidableEq, Repr

/-- `element.get("data-src")` filtered through Python truthiness. -/
def attrData (e : Elem) : Option String :=
  match e.dataSrc with
  | some d => if d = "" then none else some d
  | none => none

/-- `tag.get("src") or tag.get("data-src")` followed by `if img_url:`:
the first attribute that is present and non-empty, if any. -/
def attrOr (e : Elem) : Option String :=
  match e.src with
  | some s => if s = "" then attrData e else some s
  | none => attrData e

/-- `_record_img` / `_collect_img`: resolve the attribute against the page
URL and append to `img_urls` unless the resolved URL is in `seen_urls`.
The state is the pair (seen_urls, img_urls). -/
def recordImg (url : String) (resolve : String → String → String)
    (st : List String × List String) (e : Elem) : List String × List String :=
  match attrOr e with
  | none => st
  | some img_url =>
    let resolved := resolve url img_url
    if resolved ∈ st.1 then st else (resolved :: st.1, st.2 ++ [resolved])

/-- The resolved candidate URLs contributed by one matched element, in
recording order: the element itself first, then its nested images. -/
def elemCandidates (url : String) (resolve : String → String → String)
    (m : MatchedElem) : List String :=
  ((m.self :: m.nested).filterMap attrOr).map (resolve url)

/-- All candidate URLs of a scrape call in first-discovery order:
selectors in the order given, matched elements in document order, each
element before its nested images. -/
def discoveredUrls (url : String) (resolve : String → String → String)
    (page : String → List MatchedElem) (selectors : List String) : List String :=
  selectors.flatMap fun selector => (page selector).flatMap (elemCandidates url resolve)

theorem recordImg_eq_addKeyed (url : String) (resolve : String → String → String)
    (st : List String × List String) (e : Elem) :
    recordImg url resolve st e
      = match attrOr e with
        | none => st
        | some u => addKeyed id st (resolve url u) := by
  cases h : attrOr e <;> simp [recordImg, addKeyed, h]

/-- Folding `recordImg` over a list of elements is folding the seen/output
update over that list's non-empty resolved attributes. -/
theorem foldl_recordImg (url : String) (resolve : String → String → String) :
    ∀ (es : List Elem) (st : List String × List String),
      es.foldl (recordImg url resolve) st
        = ((es.filterMap attrOr).map (resolve url)).foldl (addKeyed id) st := by
  intro es
  induction es with
  | nil => intro st; rfl
  | cons e es ih =>
    intro st
    rw [List.foldl_cons, recordImg_eq_addKeyed]
    cases h : attrOr e with
    | none => simp only [List.filterMap_cons, h]; exact ih st
    | some u => simp only [List.filterMap_cons, h, List.map_cons, List.foldl_cons]; exact ih _

/-! ### requests_fetcher.py — the light backend -/

namespace RequestsFetcher

/-- One iteration of the light backend's element loop: record the
element's own image, then its nested images, then append its
`get_text(separator=" ", strip=True)` result as a text block when
non-empty.  State: ((seen_urls, img_urls), text_parts). -/
def scrapeElem (url : String) (resolve : String → String → String)
    (st : (List String × List String) × List String) (m : MatchedElem) :
    (List String × List String) × List String :=
  let st1 := recordImg url resolve st.1 m.self
  let st2 := m.nested.foldl (recordImg url resolve) st1
  let parts := if m.text = "" then st.2 else st.2 ++ [m.text]
  (st2, parts)

/-- `RequestsFetcher.scrape` after a successful page GET, as a function of
the parsed page.  (The GET itself and `raise_for_status` sit in front of
this loop and propagate their error; the claims below are about the
returned `ScrapeResult`.) -/
def scrape (url : String) (resolve : String → String → String)
    (page : String → List MatchedElem) (selectors : List String) : ScrapeResult :=
  let fin := selectors.foldl
    (fun st selector => (page selector).foldl (scrapeElem url resolve) st)
    (([], []), [])
  { img_urls := fin.1.2, element_text := String.intercalate "\n" fin.2 }

end RequestsFetcher

/-! ### playwright_fetcher.py — the heavy backend -/

/-- The navigation response as Playwright reports it (`response.status`,
`response.status_text`, `response.ok`). -/
structure PWResponse where
  status : Int
  status_text : String
  ok : Bool
deriving DecidableEq, Repr

/-- Observable browser interactions of one heavy-backend scrape, in order:
`page.goto(url, timeout=...)`, `page.wait_for_timeout(ms)`,
`page.query_selector_all(selector)`. -/
inductive PWEvent where
  | goto (url : String) (timeout_ms : ℚ)
  | wait_for_timeout (ms : ℚ)
  | query_selector_all (selector : String)
deriving DecidableEq, Repr

namespace PlaywrightFetcher

/-- One iteration of the heavy backend's element loop; identical image
recording, but the element text is `(element.inner_text() or "").strip()`. -/
def scrapeElem (url : String) (resolve : String → String → String)
    (st : (List String × List String) × List String) (m : MatchedElem) :
    (List String × List String) × List String :=
  let st1 := recordImg url resolve st.1 m.self
  let st2 := m.nested.foldl (recordImg url resolve) st1
  let text := m.text.trim
  let parts := if text = "" then st.2 else st.2 ++ [text]
  (st2, parts)

/-- The selector loop of `PlaywrightFetcher.scrape` over the live DOM. -/
def selectorLoop (url : String) (resolve : String → String → String)
    (page : String → List MatchedElem) (selectors : List String) : ScrapeResult :=
  let fin := selectors.foldl
    (fun st selector => (page selector).foldl (scrapeElem url resolve) st)
    (([], []), [])
  { img_urls := fin.1.2, element_text := String.intercalate "\n" fin.2 }

/-- `PlaywrightFetcher.scrape`.  `gotoResult` is the oracle outcome of
`page.goto(url, timeout=self.timeout * 1000, wait_until="load")`: a raised
navigation error, or an optional response object.  The code then waits
`page_wait_for_timeout * 1000` ms when that setting is positive, raises
`RuntimeError` when a non-null response has `ok` false, and only then
queries the selectors.  Returns the outcome plus the browser-event trace. -/
def scrape (timeout page_wait_for_timeout : ℚ)
    (gotoResult : Except Err (Option PWResponse))
    (resolve : String → String → String) (page : String → List MatchedElem)
    (url : String) (selectors : List String) :
    Except Err ScrapeResult × List PWEvent :=
  let ev0 := [PWEvent.goto url (timeout * 1000)]
  match gotoResult with
  | .error e => (.error e, ev0)
  | .ok response =>
    let ev1 := if page_wait_for_timeout > 0
      then ev0 ++ [PWEvent.wait_for_timeout (page_wait_for_timeout * 1000)]
      else ev0
    match response with
    | some r =>
      if r.ok = false then
        (.error (.runtimeError r.status r.status_text url), ev1)
      else
        (.ok (selectorLoop url resolve page selectors),
         ev1 ++ selectors.map PWEvent.query_selector_all)
    | none =>
      (.ok (selectorLoop url resolve page selectors),
       ev1 ++ selectors.map PWEvent.query_selector_all)

end PlaywrightFetcher

/-! Characterizing the image-URL component of both scrape loops. -/

theorem req_foldl_scrapeElem_fst (url : String)
    (resolve : String → String → String) :
    ∀ (ms : List MatchedElem) (st : (List String × List String) × List String),
      (ms.foldl (RequestsFetcher.scrapeElem url resolve) st).1
        = ms.foldl (fun s m => (m.self :: m.nested).foldl (recordImg url resolve) s) st.1 := by
  intro ms
  induction ms with
  | nil => intro st; rfl
  | cons m ms ih =>
    intro st
    rw [List.foldl_cons, List.foldl_cons, ih]
    rfl

theorem pw_foldl_scrapeElem_fst (url : String)
    (resolve : String → String → String) :
    ∀ (ms : List MatchedElem) (st : (List String × List String) × List String),
      (ms.foldl (PlaywrightFetcher.scrapeElem url resolve) st).1
        = ms.foldl (fun s m => (m.self :: m.nested).foldl (recordImg url resolve) s) st.1 := by
  intro ms
  induction ms with
  | nil => intro st; rfl
  | cons m ms ih =>
    intro st
    rw [List.foldl_cons, List.foldl_cons, ih]
    rfl

/-- The element-level image fold equals the flat `addKeyed` fold over the
candidate URLs of those elements. -/
theorem foldl_elems_eq_addKeyed (url : String) (resolve : String → String → String) :
    ∀ (ms : List MatchedElem) (s : List String × List String),
      ms.foldl (fun s m => (m.self :: m.nested).foldl (recordImg url resolve) s) s
        = (ms.flatMap (elemCandidates url resolve)).foldl (addKeyed id) s := by
  intro ms s
  have hFG : (fun (s : List String × List String) (m : MatchedElem) =>
        (m.self :: m.nested).foldl (recordImg url resolve) s)
      = fun s m => (elemCandidates url resolve m).foldl (addKeyed id) s := by
    funext s m
    rw [foldl_recordImg, elemCandidates]
  rw [hFG, foldl_flatMap]

/-- `RequestsFetcher.scrape` returns exactly the first occurrence of each
resolved URL in discovery order. -/
theorem RequestsFetcher.scrape_img_urls (url : String)
    (resolve : String → String → String) (page : String → List MatchedElem)
    (selectors : List String) :
    (RequestsFetcher.scrape url resolve page selectors).img_urls
      = keepFirstBy id (discoveredUrls url resolve page selectors) := by
  have hfst : (selectors.foldl
      (fun st selector => (page selector).foldl (RequestsFetcher.scrapeElem url resolve) st)
      ((([], []), []) : (List String × List String) × List String)).1
      = (discoveredUrls url resolve page selectors).foldl (addKeyed id) ([], []) := by
    have hsel : ∀ (sels : List String) (st : (List String × List String) × List String),
        (sels.foldl (fun st selector =>
            (page selector).foldl (RequestsFetcher.scrapeElem url resolve) st) st).1
          = sels.foldl (fun s selector =>
              (page selector).foldl (fun s m =>
                (m.self :: m.nested).foldl (recordImg url resolve) s) s) st.1 := by
      intro sels
      induction sels with
      | nil => intro st; rfl
      | cons sel sels ih =>
        intro st
        rw [List.foldl_cons, List.foldl_cons, ih, req_foldl_scrapeElem_fst]
    rw [hsel]
    have : ∀ (sels : List String) (s : List String × List String),
        sels.foldl (fun s selector =>
            (page selector).foldl (fun s m =>
              (m.self :: m.nested).foldl (recordImg url resolve) s) s) s
          = sels.foldl (fun s selector =>
              ((page selector).flatMap (elemCandidates url resolve)).foldl (addKeyed id) s) s := by
      intro sels
      induction sels with
      | nil => intro s; rfl
      | cons sel sels ih =>
        intro s
        rw [List.foldl_cons, List.foldl_cons, foldl_elems_eq_addKeyed, ih]
    rw [this, foldl_flatMap, discoveredUrls]
  show (selectors.foldl _ ((([], []), []) : (List String × List String) × List String)).1.2 = _
  rw [hfst, foldl_addKeyed]
  simp [keepFirstBy]

/-- Same characterization for the heavy backend's selector loop. -/
theorem PlaywrightFetcher.selectorLoop_img_urls (url : String)
    (resolve : String → String → String) (page : String → List MatchedElem)
    (selectors : List String) :
    (PlaywrightFetcher.selectorLoop url resolve page selectors).img_urls
      = keepFirstBy id (discoveredUrls url resolve page selectors) := by
  have hfst : (selectors.foldl
      (fun st selector => (page selector).foldl (PlaywrightFetcher.scrapeElem url resolve) st)
      ((([], []), []) : (List String × List String) × List String)).1
      = (discoveredUrls url resolve page selectors).foldl (addKeyed id) ([], []) := by
    have hsel : ∀ (sels : List String) (st : (List String × List String) × List String),
        (sels.foldl (fun st selector =>
            (page selector).foldl (PlaywrightFetcher.scrapeElem url resolve) st) st).1
          = sels.foldl (fun s selector =>
              (page selector).foldl (fun s m =>
                (m.self :: m.nested).foldl (recordImg url resolve) s) s) st.1 := by
      intro sels
      induction sels with
      | nil => intro st; rfl
      | cons sel sels ih =>
        intro st
        rw [List.foldl_cons, List.foldl_cons, ih, pw_foldl_scrapeElem_fst]
    rw [hsel]
    have : ∀ (sels : List String) (s : List String × List String),
        sels.foldl (fun s selector =>
            (page selector).foldl (fun s m =>
              (m.self :: m.nested).foldl (recordImg url resolve) s) s) s
          = sels.foldl (fun s selector =>
              ((page selector).flatMap (elemCandidates url resolve)).foldl (addKeyed id) s) s := by
      intro sels
      induction sels with
      | nil => intro s; rfl
      | cons sel sels ih =>
        intro s
        rw [List.foldl_cons, List.foldl_cons, foldl_elems_eq_addKeyed, ih]
    rw [this, foldl_flatMap, discoveredUrls]
  show (selectors.foldl _ ((([], []), []) : (List String × List String) × List String)).1.2 = _
  rw [hfst, foldl_addKeyed]
  simp [keepFirstBy]

/-! ### image.py — multi-variant OCR

Decoded images and the PIL operations on them are abstract: `α` is the
image type, `composite_on_color` and `getchannel` are oracles for the PIL
calls, `image_to_string` is the Tesseract oracle.  `image_to_text` keeps a
trace of the images handed to the OCR engine, in call order. -/

/-- `ocr_variant`: run the OCR engine and strip the raw result. -/
def ocr_variant {α : Type} (image_to_string : α → String) (v : α) : String :=
  (image_to_string v).trim

/-- The body of `image_to_text`'s line loop: strip the line, skip it when
blank, otherwise append it unless its lower-cased form was seen. -/
def imageMergeStep (st : List String × List String) (line : String) :
    List String × List String :=
  let line := line.trim
  if line = "" then st else addKeyed String.toLower st line

/-- `image.image_to_text`: composite on white and black, extract the R, G,
B channels of the white composite, OCR all five variants in that order and
merge the surviving lines case-insensitively.  Returns the merged text and
the list of images passed to the OCR engine. -/
def image_to_text {α : Type} (composite_on_color : α → Nat × Nat × Nat → α)
    (getchannel : α → String → α) (image_to_string : α → String) (image : α) :
    String × List α :=
  let on_white := composite_on_color image (255, 255, 255)
  let on_black := composite_on_color image (0, 0, 0)
  let r_ch := getchannel on_white "R"
  let g_ch := getchannel on_white "G"
  let b_ch := getchannel on_white "B"
  let variants := [on_white, on_black, r_ch, g_ch, b_ch]
  let fin := variants.foldl
    (fun st v =>
      let text := ocr_variant image_to_string v
      ((splitlines text).foldl imageMergeStep st.1, st.2 ++ [v]))
    (([], []), [])
  (String.intercalate "\n" fin.1.2, fin.2)

/-- Strip-and-skip followed by keyed insertion equals keyed insertion over
the stripped non-blank lines. -/
theorem foldl_imageMergeStep :
    ∀ (lines : List String) (st : List String × List String),
      lines.foldl imageMergeStep st
        = ((lines.map String.trim).filter (· ≠ "")).foldl (addKeyed String.toLower) st := by
  intro lines
  induction lines with
  | nil => intro st; rfl
  | cons line rest ih =>
    intro st
    by_cases h : line.trim = ""
    · have hstep : imageMergeStep st line = st := by simp [imageMergeStep, h]
      rw [List.foldl_cons, hstep, ih, List.map_cons, List.filter_cons]
      simp [h]
    · have hstep : imageMergeStep st line = addKeyed String.toLower st line.trim := by
        simp [imageMergeStep, h]
      rw [List.foldl_cons, hstep, ih, List.map_cons, List.filter_cons]
      simp [h]

/-- The stripped non-blank lines of one OCR result, in order: the claim's
"split into lines, strip each line, discard blank lines". -/
def cleanLines (text : String) : List String :=
  ((splitlines text).map String.trim).filter (· ≠ "")

/-- The OCR trace of `image_to_text` is exactly the five variants, in
processing order. -/
theorem image_to_text_trace {α : Type} (composite_on_color : α → Nat × Nat × Nat → α)
    (getchannel : α → String → α) (image_to_string : α → String) (image : α) :
    (image_to_text composite_on_color getchannel image_to_string image).2
      = [composite_on_color image (255, 255, 255),
         composite_on_color image (0, 0, 0),
         getchannel (composite_on_color image (255, 255, 255)) "R",
         getchannel (composite_on_color image (255, 255, 255)) "G",
         getchannel (composite_on_color image (255, 255, 255)) "B"] := rfl

/-- The merged text of `image_to_text` is the first-occurrence
case-insensitive dedup of the stripped non-blank lines of the five OCR
results, in pass order, joined by newline. -/
theorem image_to_text_merge {α : Type} (composite_on_color : α → Nat × Nat × Nat → α)
    (getchannel : α → String → α) (image_to_string : α → String) (image : α) :
    (image_to_text composite_on_color getchannel image_to_string image).1
      = String.intercalate "\n" (keepFirstBy String.toLower
          ((image_to_text composite_on_color getchannel image_to_string image).2.flatMap
            (fun v => cleanLines (ocr_variant image_to_string v)))) := by
  have hloop : ∀ (vs : List α) (st : List String × List String) (tr : List α),
      (vs.foldl (fun st v =>
          ((splitlines (ocr_variant image_to_string v)).foldl imageMergeStep st.1,
           st.2 ++ [v])) (st, tr)).1
        = (vs.flatMap (fun v => cleanLines (ocr_variant image_to_string v))).foldl
            (addKeyed String.toLower) st := by
    intro vs
    induction vs with
    | nil => intro st tr; rfl
    | cons v vs ih =>
      intro st tr
      rw [List.foldl_cons, List.flatMap_cons, List.foldl_append, ih,
        foldl_imageMergeStep]
      rfl
  have htr := image_to_text_trace composite_on_color getchannel image_to_string image
  rw [htr]
  show String.intercalate "\n" (_ : (List String × List String) × List α).1.2 = _
  rw [hloop, foldl_addKeyed]
  rfl

/-! ### cli.py — the extraction orchestrator

The orchestrator is modelled against an environment of oracles: the two
backends' `scrape` outcomes, the shared `fetch_image` outcome per URL, and
the OCR extractor `image_to_text` (whose internals are verified separately
above; here only its output string matters).  Decoded images are opaque
handles.  Every function additionally returns its trace of fetcher
constructions and network-touching calls, in order. -/

/-- An opaque decoded-image handle. -/
abbrev Img := Nat

/-- Oracles for the orchestrator's collaborators. -/
structure CliEnv where
  reqScrape : String → List String → Except Err ScrapeResult
  pwScrape : String → List String → Except Err ScrapeResult
  fetchImage : String → Except Err Img
  imageToText : Img → String

/-- Observable steps of one orchestrator call, in order. -/
inductive CliEvent where
  | makeFetcher (playwright : Bool)
  | scrapeCall (playwright : Bool) (url : String) (selectors : List String)
  | fetchImageCall (url : String)
deriving DecidableEq, Repr

/-- `Fetcher.fetch_images`: try `fetch_image` on each URL in input order,
catching any per-URL exception and skipping that URL.  Returns the fetched
images and the per-URL call trace. -/
def fetch_images (fetch : String → Except Err Img) : List String → List Img × List CliEvent
  | [] => ([], [])
  | u :: rest =>
    let r := fetch_images fetch rest
    match fetch u with
    | .ok image => (image :: r.1, CliEvent.fetchImageCall u :: r.2)
    | .error _ => (r.1, CliEvent.fetchImageCall u :: r.2)

theorem fetch_images_results (fetch : String → Except Err Img) :
    ∀ urls : List String,
      (fetch_images fetch urls).1 = urls.filterMap fun u => (fetch u).toOption := by
  intro urls
  induction urls with
  | nil => rfl
  | cons u rest ih =>
    cases h : fetch u <;>
      simp [fetch_images, List.filterMap_cons, h, Except.toOption, ih]

theorem fetch_images_calls (fetch : String → Except Err Img) :
    ∀ urls : List String,
      (fetch_images fetch urls).2 = urls.map CliEvent.fetchImageCall := by
  intro urls
  induction urls with
  | nil => rfl
  | cons u rest ih =>
    cases h : fetch u <;> simp [fetch_images, h, ih]

/-- The OCR-line merge loop of `_scrape_to_text`: lower-cased key, keep
the first occurrence, no stripping at this level. -/
def ocrLinesLoop (texts : List String) : List String :=
  (texts.foldl (fun st text => (splitlines text).foldl (addKeyed String.toLower) st)
    ([], [])).2

theorem ocrLinesLoop_eq (texts : List String) :
    ocrLinesLoop texts = keepFirstBy String.toLower (texts.flatMap splitlines) := by
  show (texts.foldl (fun st text => (splitlines text).foldl (addKeyed String.toLower) st)
      (([], []) : List String × List String)).2 = _
  rw [foldl_flatMap, foldl_addKeyed]
  rfl

/-- `cli._scrape_to_text`: scrape the page with the selected backend,
fetch the discovered images, merge their OCR text into one block, append
the element text as a second block when non-blank; `none` when neither
block exists.  A scrape exception propagates. -/
def _scrape_to_text (env : CliEnv) (url : String) (selectors : List String)
    (playwright : Bool) : Except Err (Option String) × List CliEvent :=
  let scraped := if playwright then env.pwScrape url selectors else env.reqScrape url selectors
  let ev0 := [CliEvent.scrapeCall playwright url selectors]
  match scraped with
  | .error e => (.error e, ev0)
  | .ok result =>
    let fi := fetch_images env.fetchImage result.img_urls
    let images := fi.1
    let parts : List String :=
      if images.isEmpty then []
      else [String.intercalate "\n" (ocrLinesLoop (images.map env.imageToText))]
    let parts := if result.element_text.trim = "" then parts else parts ++ [result.element_text]
    if parts.isEmpty then (.ok none, ev0 ++ fi.2)
    else (.ok (String.intercalate "\n" parts), ev0 ++ fi.2)

/-- The `ValueError` message for a settle delay without a browser backend. -/
def pageWaitMsg : String :=
  "--page-wait-for-timeout requires --playwright or --fallback-to-playwright"

/-- The `ValueError` message for the no-match outcome. -/
def noMatchMsg : String := "No images or text found matching selectors"

/-- `cli._web_to_text_command`.  `page_wait_for_timeout ≠ 0` models Python
float truthiness of the settle delay; `selectors` is the optional CLI list
(`if not selectors:` treats `None` and `[]` alike).  Returns the outcome
and the ordered trace of fetcher constructions and network calls. -/
def _web_to_text_command (env : CliEnv) (url : String)
    (selectors : Option (List String)) (page_wait_for_timeout : ℚ)
    (use_playwright fallback_to_playwright : Bool) :
    Except Err String × List CliEvent :=
  if page_wait_for_timeout ≠ 0 ∧ use_playwright = false ∧ fallback_to_playwright = false then
    (.error (.valueError pageWaitMsg), [])
  else
    let ev0 := [CliEvent.makeFetcher use_playwright]
    let sels := match selectors with | none => [] | some l => l
    if sels.isEmpty then
      match env.fetchImage url with
      | .ok image => (.ok (env.imageToText image), ev0 ++ [CliEvent.fetchImageCall url])
      | .error e => (.error e, ev0 ++ [CliEvent.fetchImageCall url])
    else
      let att1 := _scrape_to_text env url sels use_playwright
      match att1.1 with
      | .error e => (.error e, ev0 ++ att1.2)
      | .ok (some text) => (.ok text, ev0 ++ att1.2)
      | .ok none =>
        if fallback_to_playwright = true ∧ use_playwright = false then
          let ev1 := ev0 ++ att1.2 ++ [CliEvent.makeFetcher true]
          let att2 := _scrape_to_text env url sels true
          match att2.1 with
          | .error e => (.error e, ev1 ++ att2.2)
          | .ok (some text) => (.ok text, ev1 ++ att2.2)
          | .ok none => (.error (.valueError noMatchMsg), ev1 ++ att2.2)
        else (.error (.valueError noMatchMsg), ev0 ++ att1.2)

/-! Facts about `_scrape_to_text` needed for the orchestrator claims. -/

/-- The per-attempt trace: the scrape call, then (on scrape success) one
`fetch_image` call per discovered URL. -/
theorem scrape_to_text_events (env : CliEnv) (url : String) (selectors : List String)
    (playwright : Bool) :
    (_scrape_to_text env url selectors playwright).2
      = CliEvent.scrapeCall playwright url selectors ::
          (match (if playwright then env.pwScrape url selectors
                  else env.reqScrape url selectors) with
           | .error _ => []
           | .ok r => r.img_urls.map CliEvent.fetchImageCall) := by
  cases h : (if playwright then env.pwScrape url selectors
             else env.reqScrape url selectors) with
  | error e => simp [_scrape_to_text, h]
  | ok r =>
    simp only [_scrape_to_text, h, fetch_images_calls]
    by_cases h1 : (fetch_images env.fetchImage r.img_urls).1.isEmpty <;>
      by_cases h2 : r.element_text.trim = "" <;>
        simp [h1, h2, fetch_images_calls]

/-- A scrape exception propagates unchanged out of `_scrape_to_text`. -/
theorem scrape_to_text_error (env : CliEnv) (url : String) (selectors : List String)
    (playwright : Bool) (e : Err)
    (h : (if playwright then env.pwScrape url selectors
          else env.reqScrape url selectors) = .error e) :
    (_scrape_to_text env url selectors playwright).1 = .error e := by
  simp [_scrape_to_text, h]

/-- `_scrape_to_text` yields `none` exactly when the scrape succeeded but
no image could be fetched and the element text is blank after trimming. -/
theorem scrape_to_text_none_iff (env : CliEnv) (url : String) (selectors : List String)
    (playwright : Bool) :
    (_scrape_to_text env url selectors playwright).1 = .ok none
      ↔ ∃ r, (if playwright then env.pwScrape url selectors
              else env.reqScrape url selectors) = .ok r
          ∧ (fetch_images env.fetchImage r.img_urls).1 = []
          ∧ r.element_text.trim = "" := by
  cases h : (if playwright then env.pwScrape url selectors
             else env.reqScrape url selectors) with
  | error e => simp [_scrape_to_text, h]
  | ok r =>
    rcases h1 : (fetch_images env.fetchImage r.img_urls).1 with _ | ⟨i, is⟩ <;>
      by_cases h2 : r.element_text.trim = "" <;>
        simp [_scrape_to_text, h, h1, h2]

/-! ## The claims -/

/-- C3: for every input URL list, `fetch_images` calls `fetch_image` once
per URL in input order, catches any per-URL failure and omits that URL's
result without raising, returns the successful results in their relative
input order, and for an empty input returns an empty sequence without
issuing any network call. -/
theorem claim_C3_fetch_images (fetch : String → Except Err Img) (urls : List String) :
    (fetch_images fetch urls).2 = urls.map CliEvent.fetchImageCall
    ∧ (fetch_images fetch urls).1 = urls.filterMap (fun u => (fetch u).toOption)
    ∧ fetch_images fetch [] = ([], []) :=
  ⟨fetch_images_calls fetch urls, fetch_images_results fetch urls, rfl⟩

/-- C5: `image_to_text` runs the OCR pass exactly 5 times, on the
white-background composite, the black-background composite, and the R, G,
B channels of the white composite, in that order; each result is split
into lines, each line stripped, blank lines discarded, and a line enters
the output (in the casing of its first occurrence) only the first time its
case-folded form is seen across the 5 passes; surviving lines are joined
with newline. -/
theorem claim_C5_image_to_text {α : Type} (composite_on_color : α → Nat × Nat × Nat → α)
    (getchannel : α → String → α) (image_to_string : α → String) (image : α) :
    (image_to_text composite_on_color getchannel image_to_string image).2
      = [composite_on_color image (255, 255, 255), composite_on_color image (0, 0, 0),
         getchannel (composite_on_color image (255, 255, 255)) "R",
         getchannel (composite_on_color image (255, 255, 255)) "G",
         getchannel (composite_on_color image (255, 255, 255)) "B"]
    ∧ let res := image_to_text composite_on_color getchannel image_to_string image
      let allClean := res.2.flatMap (fun v => cleanLines (ocr_variant image_to_string v))
      let outLines := keepFirstBy String.toLower allClean
      res.2.length = 5
      ∧ res.1 = String.intercalate "\n" outLines
      ∧ outLines.Pairwise (fun a b => a.toLower ≠ b.toLower)
      ∧ (∀ l ∈ outLines,
          (∃ v ∈ res.2, ∃ raw ∈ splitlines (ocr_variant image_to_string v), l = raw.trim)
          ∧ l ≠ "")
      ∧ (∀ l ∈ outLines, ∃ l₁ l₂, allClean = l₁ ++ l :: l₂
          ∧ ∀ y ∈ l₁, y.toLower ≠ l.toLower) := by
  refine ⟨image_to_text_trace _ _ _ _, ?_⟩
  intro res allClean outLines
  refine ⟨by rw [image_to_text_trace]; rfl, ?_, ?_, ?_, ?_⟩
  · exact image_to_text_merge _ _ _ _
  · exact keepFirstBy_pairwise _ _
  · intro l hl
    have hmem : l ∈ allClean := (keepFirstBy_sublist _ _).mem hl
    rw [List.mem_flatMap] at hmem
    obtain ⟨v, hv, hlv⟩ := hmem
    unfold cleanLines at hlv
    have hne : l ≠ "" := by
      have := List.of_mem_filter hlv
      simpa using this
    have hlm := List.mem_of_mem_filter hlv
    rw [List.mem_map] at hlm
    obtain ⟨raw, hraw, hrt⟩ := hlm
    exact ⟨⟨v, hv, raw, hraw, hrt.symm⟩, hne⟩
  · intro l hl
    exact keepFirstBy_first_occurrence _ _ l hl

/-- Concrete instantiation of the C5 theorem: constant oracles, the OCR
engine returning a mixed-case two-line text on every variant. -/
theorem claim_C5_witness :
    (image_to_text (fun (i : Nat) (_ : Nat × Nat × Nat) => i) (fun i _ => i)
        (fun _ => " Hello\nhello\nWorld ") 0).2
      = [(fun (i : Nat) (_ : Nat × Nat × Nat) => i) 0 (255, 255, 255),
         (fun (i : Nat) (_ : Nat × Nat × Nat) => i) 0 (0, 0, 0),
         (fun (i : Nat) (_ : String) => i)
           ((fun (i : Nat) (_ : Nat × Nat × Nat) => i) 0 (255, 255, 255)) "R",
         (fun (i : Nat) (_ : String) => i)
           ((fun (i : Nat) (_ : Nat × Nat × Nat) => i) 0 (255, 255, 255)) "G",
         (fun (i : Nat) (_ : String) => i)
           ((fun (i : Nat) (_ : Nat × Nat × Nat) => i) 0 (255, 255, 255)) "B"]
    ∧ let res := image_to_text (fun (i : Nat) (_ : Nat × Nat × Nat) => i) (fun i _ => i)
        (fun _ => " Hello\nhello\nWorld ") 0
      let allClean := res.2.flatMap
        (fun v => cleanLines (ocr_variant (fun _ => " Hello\nhello\nWorld ") v))
      let outLines := keepFirstBy String.toLower allClean
      res.2.length = 5
      ∧ res.1 = String.intercalate "\n" outLines
      ∧ outLines.Pairwise (fun a b => a.toLower ≠ b.toLower)
      ∧ (∀ l ∈ outLines,
          (∃ v ∈ res.2, ∃ raw ∈ splitlines
              (ocr_variant (fun (_ : Nat) => " Hello\nhello\nWorld ") v), l = raw.trim)
          ∧ l ≠ "")
      ∧ (∀ l ∈ outLines, ∃ l₁ l₂, allClean = l₁ ++ l :: l₂
          ∧ ∀ y ∈ l₁, y.toLower ≠ l.toLower) :=
  claim_C5_image_to_text (fun i _ => i) (fun i _ => i) (fun _ => " Hello\nhello\nWorld ") 0

/-- C2: for either backend and every page content, the returned
`ScrapeResult.img_urls` has no duplicate (after URL resolution) and is the
first-occurrence dedup of the discovery-order URL list — selectors in the
order given, matched elements in document order, each matched element's
own image reference before its nested images (`discoveredUrls` spells out
exactly that order). -/
theorem claim_C2_img_urls_dedup_order (url : String) (resolve : String → String → String)
    (page : String → List MatchedElem) (selectors : List String) :
    let D := discoveredUrls url resolve page selectors
    ((RequestsFetcher.scrape url resolve page selectors).img_urls = keepFirstBy id D
      ∧ (RequestsFetcher.scrape url resolve page selectors).img_urls.Nodup
      ∧ ∀ x ∈ (RequestsFetcher.scrape url resolve page selectors).img_urls,
          ∃ l₁ l₂, D = l₁ ++ x :: l₂ ∧ x ∉ l₁)
    ∧ (∀ (timeout settle : ℚ) (gotoResult : Except Err (Option PWResponse))
          (r : ScrapeResult) (evs : List PWEvent),
        PlaywrightFetcher.scrape timeout settle gotoResult resolve page url selectors
            = (.ok r, evs)
        → r.img_urls = keepFirstBy id D ∧ r.img_urls.Nodup
          ∧ ∀ x ∈ r.img_urls, ∃ l₁ l₂, D = l₁ ++ x :: l₂ ∧ x ∉ l₁) := by
  intro D
  have hfirst : ∀ x ∈ keepFirstBy id D, ∃ l₁ l₂, D = l₁ ++ x :: l₂ ∧ x ∉ l₁ := by
    intro x hx
    obtain ⟨l₁, l₂, hD, hne⟩ := keepFirstBy_first_occurrence id D x hx
    exact ⟨l₁, l₂, hD, fun hmem => hne x hmem rfl⟩
  constructor
  · refine ⟨RequestsFetcher.scrape_img_urls url resolve page selectors, ?_, ?_⟩
    · rw [RequestsFetcher.scrape_img_urls]; exact keepFirstBy_id_nodup D
    · rw [RequestsFetcher.scrape_img_urls]; exact hfirst
  · intro timeout settle gotoResult r evs h
    have hr : r = PlaywrightFetcher.selectorLoop url resolve page selectors := by
      rcases gotoResult with e | response
      · simp [PlaywrightFetcher.scrape] at h
      · rcases response with _ | resp
        · rw [PlaywrightFetcher.scrape] at h
          have := congrArg Prod.fst h
          simp at this
          exact this.symm
        · rw [PlaywrightFetcher.scrape] at h
          by_cases hok : resp.ok = false
          · simp [hok] at h
          · have := congrArg Prod.fst h
            simp [hok] at this
            exact this.symm
    subst hr
    refine ⟨PlaywrightFetcher.selectorLoop_img_urls url resolve page selectors, ?_, ?_⟩
    · rw [PlaywrightFetcher.selectorLoop_img_urls]; exact keepFirstBy_id_nodup D
    · rw [PlaywrightFetcher.selectorLoop_img_urls]; exact hfirst

/-- Concrete instantiation of the C2 theorem: one selector matching two
elements, the second repeating the first's resolved URL. -/
theorem claim_C2_witness :
    let url := "http://e/"
    let resolve : String → String → String := fun _ r => r
    let page : String → List MatchedElem := fun selector =>
      if selector = "s"
      then [⟨⟨some "a", none⟩, [⟨none, some "b"⟩], "T"⟩, ⟨⟨some "a", none⟩, [], ""⟩]
      else []
    let selectors := ["s"]
    let D := discoveredUrls url resolve page selectors
    ((RequestsFetcher.scrape url resolve page selectors).img_urls = keepFirstBy id D
      ∧ (RequestsFetcher.scrape url resolve page selectors).img_urls.Nodup
      ∧ ∀ x ∈ (RequestsFetcher.scrape url resolve page selectors).img_urls,
          ∃ l₁ l₂, D = l₁ ++ x :: l₂ ∧ x ∉ l₁)
    ∧ (∀ (timeout settle : ℚ) (gotoResult : Except Err (Option PWResponse))
          (r : ScrapeResult) (evs : List PWEvent),
        PlaywrightFetcher.scrape timeout settle gotoResult resolve page url selectors
            = (.ok r, evs)
        → r.img_urls = keepFirstBy id D ∧ r.img_urls.Nodup
          ∧ ∀ x ∈ r.img_urls, ∃ l₁ l₂, D = l₁ ++ x :: l₂ ∧ x ∉ l₁) :=
  claim_C2_img_urls_dedup_order "http://e/" (fun _ r => r)
    (fun selector => if selector = "s"
      then [⟨⟨some "a", none⟩, [⟨none, some "b"⟩], "T"⟩, ⟨⟨some "a", none⟩, [], ""⟩]
      else []) ["s"]

/-- C4: in selector mode, when at least one image was fetched the OCR
texts of all fetched images are merged line-by-line with a single
case-insensitive first-occurrence dedup across all images of the attempt
(image order first, each image's lines in order) into the first output
block; a non-blank (after trimming) `element_text` becomes a second block
after the OCR block; if at least one block exists the blocks are joined
with a newline and returned, else the attempt yields `none`. -/
theorem claim_C4_block_assembly (env : CliEnv) (url : String) (selectors : List String)
    (playwright : Bool) (r : ScrapeResult)
    (h : (if playwright then env.pwScrape url selectors
          else env.reqScrape url selectors) = .ok r) :
    let images := (fetch_images env.fetchImage r.img_urls).1
    let ocrBlock := String.intercalate "\n"
        (keepFirstBy String.toLower ((images.map env.imageToText).flatMap splitlines))
    (_scrape_to_text env url selectors playwright).1
      = .ok (if images = [] ∧ r.element_text.trim = "" then none
             else some (String.intercalate "\n"
               ((if images = [] then [] else [ocrBlock])
                 ++ (if r.element_text.trim = "" then [] else [r.element_text])))) := by
  intro images ocrBlock
  rcases h1 : images with _ | ⟨i, is⟩ <;>
    by_cases h2 : r.element_text.trim = "" <;>
      simp only [_scrape_to_text, h, images] at h1 ⊢ <;>
        simp [h1, h2, ocrBlock, ocrLinesLoop_eq, images]

/-- Concrete instantiation of the C4 theorem: light backend, one image
URL that fetches successfully, OCR text "OCR", element text "Caption". -/
theorem claim_C4_witness :
    let env : CliEnv :=
      { reqScrape := fun _ _ => .ok ⟨["http://e/a.png"], "Caption"⟩
        pwScrape := fun _ _ => .ok ⟨[], ""⟩
        fetchImage := fun _ => .ok 7
        imageToText := fun _ => "OCR" }
    let r : ScrapeResult := ⟨["http://e/a.png"], "Caption"⟩
    let images := (fetch_images env.fetchImage r.img_urls).1
    let ocrBlock := String.intercalate "\n"
        (keepFirstBy String.toLower ((images.map env.imageToText).flatMap splitlines))
    (_scrape_to_text env "http://e" [".sel"] false).1
      = .ok (if images = [] ∧ r.element_text.trim = "" then none
             else some (String.intercalate "\n"
               ((if images = [] then [] else [ocrBlock])
                 ++ (if r.element_text.trim = "" then [] else [r.element_text])))) :=
  claim_C4_block_assembly
    { reqScrape := fun _ _ => .ok ⟨["http://e/a.png"], "Caption"⟩
      pwScrape := fun _ _ => .ok ⟨[], ""⟩
      fetchImage := fun _ => .ok 7
      imageToText := fun _ => "OCR" }
    "http://e" [".sel"] false ⟨["http://e/a.png"], "Caption"⟩ rfl

/-- The C6 detection condition exactly as the claim states it, over the
whole body: after stripping leading whitespace, the body starts with the
vector tag, or starts with an XML declaration with the vector tag
occurring within the first 1024 bytes. -/
def svgSigClaim (data : List Nat) : Prop :=
  let stripped := data.dropWhile isPyWS
  stripped.take svgTag.length = svgTag
    ∨ (stripped.take xmlTag.length = xmlTag
        ∧ ∃ i, ((stripped.take 1024).drop i).take svgTag.length = svgTag)

/-- The amended C6 condition: the same signature test, but applied to the
whitespace-stripped first 512 bytes of the body only (which is what
`data[:512].lstrip()` in the source inspects). -/
def svgSig512 (data : List Nat) : Prop :=
  let header := (data.take 512).dropWhile isPyWS
  header.take svgTag.length = svgTag
    ∨ (header.take xmlTag.length = xmlTag
        ∧ ∃ i, ((header.take 1024).drop i).take svgTag.length = svgTag)

theorem is_svg_iff_svgSig512 (data : List Nat) : _is_svg data = true ↔ svgSig512 data := by
  unfold _is_svg svgSig512
  simp only [Bool.or_eq_true, Bool.and_eq_true, startsWithBytes_iff, containsBytes_iff]

/-- A body of 513 blanks followed by `<svg`. -/
def exSvgBody : List Nat := List.replicate 513 32 ++ svgTag

set_option maxRecDepth 4000 in
/-- C6 counterexample: this body satisfies the claim's whole-body
condition, yet `_is_svg` rejects it (its 512-byte window contains only
whitespace) and `fetch_image` decodes it as a bitmap — so "rasterize
exactly when the claim's condition holds" is false at this input. -/
theorem claim_C6_counterexample :
    svgSigClaim exSvgBody ∧ _is_svg exSvgBody = false
      ∧ fetch_image ⟨200, exSvgBody⟩ = .ok (DecodedImage.fromBitmap exSvgBody) := by
  refine ⟨Or.inl (by decide), by decide, ?_⟩
  have h : _is_svg exSvgBody = false := by decide
  simp [fetch_image, h]

/-- C6 amended: for a success-status response, `fetch_image` rasterizes
the body as vector content exactly when the whitespace-stripped first 512
bytes start with the vector tag, or start with an XML declaration with the
vector tag within the first 1024 bytes of that stripped prefix; otherwise
it decodes the raw bytes directly as a bitmap. -/
theorem claim_C6_svg_detection (resp : HttpResponse)
    (hok : ¬(400 ≤ resp.status ∧ resp.status < 600)) :
    (fetch_image resp = .ok (DecodedImage.fromSvg resp.content) ↔ svgSig512 resp.content)
    ∧ (¬ svgSig512 resp.content
        → fetch_image resp = .ok (DecodedImage.fromBitmap resp.content)) := by
  unfold fetch_image
  rw [if_neg hok]
  constructor
  · rw [← is_svg_iff_svgSig512]
    by_cases h : _is_svg resp.content <;> simp [h]
  · intro hn
    rw [← is_svg_iff_svgSig512, Bool.not_eq_true] at hn
    simp [hn]

/-- Concrete instantiation of the amended C6 theorem at a status-200
response whose body is a bare `<svg` tag. -/
theorem claim_C6_witness :
    (fetch_image ⟨200, svgTag⟩ = .ok (DecodedImage.fromSvg svgTag) ↔ svgSig512 svgTag)
    ∧ (¬ svgSig512 svgTag
        → fetch_image ⟨200, svgTag⟩ = .ok (DecodedImage.fromBitmap svgTag)) :=
  claim_C6_svg_detection ⟨200, svgTag⟩ (by decide)

/-- C7 counterexample: navigation returns a failing response (status 500)
and a settle delay of 5 s is configured.  The claim says the status check
occurs before the settle-delay wait, i.e. on this input the error must be
raised with no wait performed; the code instead performs
`wait_for_timeout(5000)` first and raises afterwards, as the trace shows. -/
theorem claim_C7_counterexample :
    PlaywrightFetcher.scrape 30 5 (.ok (some ⟨500, "Internal Server Error", false⟩))
        (fun _ r => r) (fun _ => []) "http://e" ["s"]
      = (.error (.runtimeError 500 "Internal Server Error" "http://e"),
         [PWEvent.goto "http://e" 30000, PWEvent.wait_for_timeout 5000])
    ∧ PWEvent.wait_for_timeout 5000 ∈
        (PlaywrightFetcher.scrape 30 5 (.ok (some ⟨500, "Internal Server Error", false⟩))
          (fun _ r => r) (fun _ => []) "http://e" ["s"]).2 := by
  constructor
  · show ((Except.error (Err.runtimeError 500 "Internal Server Error" "http://e") :
        Except Err ScrapeResult),
      (if (5 : ℚ) > 0
       then [PWEvent.goto "http://e" ((30 : ℚ) * 1000)]
         ++ [PWEvent.wait_for_timeout ((5 : ℚ) * 1000)]
       else [PWEvent.goto "http://e" ((30 : ℚ) * 1000)])) = _
    norm_num
  · norm_num [PlaywrightFetcher.scrape]

/-- C7 amended: in the heavy backend's scrape, after a successful
navigation the settle-delay wait happens first — and only when the
configured delay is greater than zero — and then, if a non-null response's
status indicates failure, an error reporting the numeric status and status
text is raised; the status check still precedes all selector queries (the
trace ends right there on failure). -/
theorem claim_C7_status_after_wait (timeout settle : ℚ)
    (resolve : String → String → String) (page : String → List MatchedElem)
    (url : String) (selectors : List String) (response : Option PWResponse) :
    let R := PlaywrightFetcher.scrape timeout settle (.ok response) resolve page url selectors
    R.2 = [PWEvent.goto url (timeout * 1000)]
          ++ (if settle > 0 then [PWEvent.wait_for_timeout (settle * 1000)] else [])
          ++ (match response with
              | some r => if r.ok = false then []
                          else selectors.map PWEvent.query_selector_all
              | none => selectors.map PWEvent.query_selector_all)
    ∧ (∀ r, response = some r → r.ok = false →
        R.1 = .error (.runtimeError r.status r.status_text url)) := by
  intro R
  rcases response with _ | r
  · constructor
    · by_cases hs : settle > 0 <;> simp [R, PlaywrightFetcher.scrape, hs]
    · intro r hr; exact absurd hr (by simp)
  · by_cases hok : r.ok = false
    · constructor
      · by_cases hs : settle > 0 <;> simp [R, PlaywrightFetcher.scrape, hs, hok]
      · intro r' hr' _
        have : r' = r := by injection hr' with h; exact h.symm
        subst this
        by_cases hs : settle > 0 <;> simp [R, PlaywrightFetcher.scrape, hs, hok]
    · constructor
      · by_cases hs : settle > 0 <;> simp [R, PlaywrightFetcher.scrape, hs, hok]
      · intro r' hr' hok'
        have : r' = r := by injection hr' with h; exact h.symm
        subst this
        exact absurd hok' hok

/-- Concrete instantiation of the amended C7 theorem: failing response,
positive settle delay. -/
theorem claim_C7_witness :
    let R := PlaywrightFetcher.scrape 30 5 (.ok (some ⟨500, "Internal Server Error", false⟩))
        (fun _ r => r) (fun _ => []) "http://e" ["s"]
    R.2 = [PWEvent.goto "http://e" ((30 : ℚ) * 1000)]
          ++ (if (5 : ℚ) > 0 then [PWEvent.wait_for_timeout ((5 : ℚ) * 1000)] else [])
          ++ (match (some (⟨500, "Internal Server Error", false⟩ : PWResponse)) with
              | some r => if r.ok = false then []
                          else (["s"] : List String).map PWEvent.query_selector_all
              | none => (["s"] : List String).map PWEvent.query_selector_all)
    ∧ (∀ r, (some (⟨500, "Internal Server Error", false⟩ : PWResponse)) = some r
        → r.ok = false
        → R.1 = .error (.runtimeError r.status r.status_text "http://e")) :=
  claim_C7_status_after_wait 30 5 (fun _ r => r) (fun _ => []) "http://e" ["s"]
    (some ⟨500, "Internal Server Error", false⟩)

/-- C8: a nonzero settle delay without the heavy backend selected and
without escalation enabled is rejected with the configuration
`ValueError` before any fetcher is constructed or any network call is
made (the trace is empty). -/
theorem claim_C8_config_error (env : CliEnv) (url : String)
    (selectors : Option (List String)) (page_wait_for_timeout : ℚ)
    (h1 : page_wait_for_timeout ≠ 0) :
    _web_to_text_command env url selectors page_wait_for_timeout false false
      = (.error (.valueError pageWaitMsg), []) := by
  rw [_web_to_text_command.eq_def, if_pos]
  exact ⟨h1, rfl, rfl⟩

/-- Witness environment for the orchestrator claims: both backends scrape
successfully but find nothing, image fetches fail, OCR returns "". -/
def envN : CliEnv where
  reqScrape := fun _ _ => .ok ⟨[], ""⟩
  pwScrape := fun _ _ => .ok ⟨[], ""⟩
  fetchImage := fun _ => .error (.exn 0)
  imageToText := fun _ => ""

/-- Concrete instantiation of the C8 theorem: settle delay 1, light
backend, no escalation. -/
theorem claim_C8_witness :
    _web_to_text_command envN "http://e" (some ["s"]) 1 false false
      = (.error (.valueError pageWaitMsg), []) :=
  claim_C8_config_error envN "http://e" (some ["s"]) 1 (by norm_num)

/-- C9: with no selectors given (and a passing configuration check), the
chosen fetcher is constructed, `fetch_image(url)` is called directly, the
OCR extractor's output on the fetched image is returned (an error from the
fetch propagates), and no scrape call — hence no escalation — occurs. -/
theorem claim_C9_direct_image (env : CliEnv) (url : String) (page_wait : ℚ)
    (use_playwright fallback : Bool)
    (hcfg : ¬(page_wait ≠ 0 ∧ use_playwright = false ∧ fallback = false)) :
    let R := _web_to_text_command env url none page_wait use_playwright fallback
    R.1 = (env.fetchImage url).map env.imageToText
    ∧ R.2 = [CliEvent.makeFetcher use_playwright, CliEvent.fetchImageCall url]
    ∧ ∀ (b : Bool) (u : String) (sl : List String), CliEvent.scrapeCall b u sl ∉ R.2 := by
  intro R
  cases hf : env.fetchImage url <;>
    simp [R, _web_to_text_command, hcfg, hf, Except.map]

/-- Concrete instantiation of the C9 theorem: zero settle delay, light
backend, failing image fetch. -/
theorem claim_C9_witness :
    let R := _web_to_text_command envN "http://e/i.png" none 0 false false
    R.1 = (envN.fetchImage "http://e/i.png").map envN.imageToText
    ∧ R.2 = [CliEvent.makeFetcher false, CliEvent.fetchImageCall "http://e/i.png"]
    ∧ ∀ (b : Bool) (u : String) (sl : List String), CliEvent.scrapeCall b u sl ∉ R.2 :=
  claim_C9_direct_image envN "http://e/i.png" 0 false false (by norm_num)

/-- C10: an empty selector list behaves exactly like no selector list at
all: the whole orchestrator outcome (result and trace) coincides, so the
call takes the direct-image path and scrape is never invoked. -/
theorem claim_C10_empty_selectors (env : CliEnv) (url : String) (page_wait : ℚ)
    (use_playwright fallback : Bool) :
    _web_to_text_command env url (some []) page_wait use_playwright fallback
      = _web_to_text_command env url none page_wait use_playwright fallback := by
  by_cases h : page_wait ≠ 0 ∧ use_playwright = false ∧ fallback = false <;>
    simp [_web_to_text_command, h]

/-- The trace of one `_scrape_to_text` attempt: the scrape call followed
only by image-fetch calls. -/
theorem scrape_to_text_trace_shape (env : CliEnv) (url : String) (selectors : List String)
    (playwright : Bool) :
    ∃ us : List String, (_scrape_to_text env url selectors playwright).2
      = CliEvent.scrapeCall playwright url selectors :: us.map CliEvent.fetchImageCall := by
  rw [scrape_to_text_events]
  rcases (if playwright then env.pwScrape url selectors
          else env.reqScrape url selectors) with e | r
  · exact ⟨[], rfl⟩
  · exact ⟨r.img_urls, rfl⟩

/-- C1: in selector mode starting on the light backend, a scrape error
propagates unchanged and never triggers escalation; the heavy backend is
attempted at most once, and exactly when the light attempt succeeded with
zero fetched images and blank element text while the escalation flag is
set; a heavy-attempt error propagates; and when every permitted attempt
finds nothing, the no-match `ValueError` is raised. -/
theorem claim_C1_escalation (env : CliEnv) (url s0 : String) (rest : List String)
    (page_wait : ℚ) (fb : Bool) (hcfg : ¬(page_wait ≠ 0 ∧ fb = false)) :
    let sels := s0 :: rest
    let R := _web_to_text_command env url (some sels) page_wait false fb
    (∀ e, env.reqScrape url sels = .error e →
        R.1 = .error e ∧ ∀ sl, CliEvent.scrapeCall true url sl ∉ R.2)
    ∧ R.2.count (CliEvent.scrapeCall true url sels) ≤ 1
    ∧ (CliEvent.scrapeCall true url sels ∈ R.2
        ↔ fb = true ∧ ∃ r, env.reqScrape url sels = .ok r
            ∧ (fetch_images env.fetchImage r.img_urls).1 = []
            ∧ r.element_text.trim = "")
    ∧ (∀ e, (_scrape_to_text env url sels false).1 = .ok none → fb = true →
        env.pwScrape url sels = .error e → R.1 = .error e)
    ∧ ((_scrape_to_text env url sels false).1 = .ok none →
        (fb = false → R.1 = .error (.valueError noMatchMsg))
        ∧ (fb = true → (_scrape_to_text env url sels true).1 = .ok none →
            R.1 = .error (.valueError noMatchMsg))) := by
  intro sels R
  have hcfg2 : ¬(¬page_wait = 0 ∧ fb = false) := by simpa using hcfg
  obtain ⟨us1, hsh1⟩ := scrape_to_text_trace_shape env url sels false
  obtain ⟨us2, hsh2⟩ := scrape_to_text_trace_shape env url sels true
  have hnone := scrape_to_text_none_iff env url sels false
  simp only [Bool.false_eq_true, if_false] at hnone
  have hcnt1 : (us1.map CliEvent.fetchImageCall).count (CliEvent.scrapeCall true url sels) = 0 :=
    List.count_eq_zero.mpr (by simp)
  have hcnt2 : (us2.map CliEvent.fetchImageCall).count (CliEvent.scrapeCall true url sels) = 0 :=
    List.count_eq_zero.mpr (by simp)
  refine ⟨?_, ?_, ?_, ?_, ?_⟩
  · -- (a) light scrape error: propagate, no heavy attempt
    intro e he
    have hx1 : (_scrape_to_text env url sels false).1 = .error e :=
      scrape_to_text_error env url sels false e (by simpa using he)
    constructor
    · simp [R, _web_to_text_command, hcfg2, hx1]
    · intro sl
      simp [R, _web_to_text_command, hcfg2, hx1, hsh1]
  · -- (b) heavy backend attempted at most once
    rcases hx1 : (_scrape_to_text env url sels false).1 with e1 | o1
    · simp [R, _web_to_text_command, hcfg2, hx1, hsh1, List.count_cons, hcnt1]
    · rcases o1 with _ | t1
      · by_cases hfb : fb = true
        · rcases hx2 : (_scrape_to_text env url sels true).1 with e2 | o2
          · simp [R, _web_to_text_command, hcfg2, hx1, hx2, hsh1, hsh2, hfb,
              List.count_append, List.count_cons, hcnt1, hcnt2]
          · rcases o2 with _ | t2 <;>
              simp [R, _web_to_text_command, hcfg2, hx1, hx2, hsh1, hsh2, hfb,
                List.count_append, List.count_cons, hcnt1, hcnt2]
        · have hfb0 : fb = false := by revert hfb; cases fb <;> simp
          have hpw : page_wait = 0 := by
            by_contra hne
            exact hcfg ⟨hne, hfb0⟩
          simp [R, _web_to_text_command, hx1, hsh1, hfb0, hpw, List.count_cons, hcnt1]
      · simp [R, _web_to_text_command, hcfg2, hx1, hsh1, List.count_cons, hcnt1]
  · -- (c) heavy attempted iff escalation flag and empty light attempt
    constructor
    · intro hmem
      rcases hx1 : (_scrape_to_text env url sels false).1 with e1 | o1
      · exfalso
        revert hmem
        simp [R, _web_to_text_command, hcfg2, hx1, hsh1]
      · rcases o1 with _ | t1
        · by_cases hfb : fb = true
          · exact ⟨hfb, hnone.mp hx1⟩
          · exfalso
            have hfb0 : fb = false := by revert hfb; cases fb <;> simp
            have hpw : page_wait = 0 := by
              by_contra hne
              exact hcfg ⟨hne, hfb0⟩
            revert hmem
            simp [R, _web_to_text_command, hx1, hsh1, hfb0, hpw]
        · exfalso
          revert hmem
          simp [R, _web_to_text_command, hcfg2, hx1, hsh1]
    · rintro ⟨hfb, hempty⟩
      have hx1 : (_scrape_to_text env url sels false).1 = .ok none := hnone.mpr hempty
      rcases hx2 : (_scrape_to_text env url sels true).1 with e2 | o2
      · simp [R, _web_to_text_command, hcfg2, hx1, hx2, hsh1, hsh2, hfb]
      · rcases o2 with _ | t2 <;>
          simp [R, _web_to_text_command, hcfg2, hx1, hx2, hsh1, hsh2, hfb]
  · -- (d) heavy scrape error propagates
    intro e h1 hfb h2
    have hx2 : (_scrape_to_text env url sels true).1 = .error e :=
      scrape_to_text_error env url sels true e (by simpa using h2)
    simp [R, _web_to_text_command, hcfg2, h1, hx2, hfb]
  · -- (e) nothing found after permitted attempts: no-match error
    intro h1
    constructor
    · intro hfb0
      have hpw : page_wait = 0 := by
        by_contra hne
        exact hcfg ⟨hne, hfb0⟩
      simp [R, _web_to_text_command, h1, hfb0, hpw]
    · intro hfb h2
      simp [R, _web_to_text_command, hcfg2, h1, h2, hfb]

/-- Concrete instantiation of the C1 theorem: escalation enabled, both
backends scrape successfully but find nothing. -/
theorem claim_C1_witness :
    let sels := "s" :: ([] : List String)
    let R := _web_to_text_command envN "http://e" (some sels) 0 false true
    (∀ e, envN.reqScrape "http://e" sels = .error e →
        R.1 = .error e ∧ ∀ sl, CliEvent.scrapeCall true "http://e" sl ∉ R.2)
    ∧ R.2.count (CliEvent.scrapeCall true "http://e" sels) ≤ 1
    ∧ (CliEvent.scrapeCall true "http://e" sels ∈ R.2
        ↔ true = true ∧ ∃ r, envN.reqScrape "http://e" sels = .ok r
            ∧ (fetch_images envN.fetchImage r.img_urls).1 = []
            ∧ r.element_text.trim = "")
    ∧ (∀ e, (_scrape_to_text envN "http://e" sels false).1 = .ok none → true = true →
        envN.pwScrape "http://e" sels = .error e → R.1 = .error e)
    ∧ ((_scrape_to_text envN "http://e" sels false).1 = .ok none →
        (true = false → R.1 = .error (.valueError noMatchMsg))
        ∧ (true = true → (_scrape_to_text envN "http://e" sels true).1 = .ok none →
            R.1 = .error (.valueError noMatchMsg))) :=
  claim_C1_escalation envN "http://e" "s" [] 0 true (by norm_num)

end Wuzup
